import Mathlib

/-!
Verification development for `darts/models/forecasting/tft_copy.py`
(Temporal Fusion Transformer variant: model module and rollout controller).

The Python source is shallowly embedded: tensors appear only through the
dimensions and entries the claims are about (boolean attention masks as
nested lists, chunk lengths of the autoregressive rollout, feature-name
lists of the variable-group construction, sub-network instances as
allocation identifiers).  Every definition below mirrors a specific piece
of the source file; the defining comment names the Python symbol.
-/

namespace TFT

/-! ### Attention mask (`_TFTModule.create_mask`, `_TFTModule.get_attention_mask`) -/

/-- `_TFTModule.create_mask(size, lengths)` (default `inverse=False`):
boolean matrix of shape `len(lengths) × size`, entry `(i, j)` is
`arange(size)[j] >= lengths[i]`. -/
def create_mask (size : Nat) (lengths : List Nat) : List (List Bool) :=
  lengths.map fun len => (List.range size).map fun j => decide (len ≤ j)

/-- `encoder_lengths.max()` for a (nonempty) batch of lengths. -/
def listMax (l : List Nat) : Nat := l.foldl max 0

/-- `_TFTModule.get_attention_mask(encoder_lengths, decoder_length)`:
`decoder_mask[q][k] = (attend_step[k] >= predict_step[q]) = (k >= q)`;
`encoder_mask = create_mask(encoder_lengths.max(), encoder_lengths)`;
result `mask[i][q] = encoder_mask[i] ++ decoder_mask[q]`
(the `torch.cat` of the two broadcast masks along the attended-time axis). -/
def get_attention_mask (encoder_lengths : List Nat) (decoder_length : Nat) :
    List (List (List Bool)) :=
  let decoder_mask : List (List Bool) :=
    (List.range decoder_length).map fun q =>
      (List.range decoder_length).map fun k => decide (q ≤ k)
  (create_mask (listMax encoder_lengths) encoder_lengths).map fun encRow =>
    (List.range decoder_length).map fun q => encRow ++ decoder_mask.getD q []

/-- Mask described by the words of the claim: entry `(i, q, k)` is `True`
exactly when `k` refers to an encoder position whose index is `≥` sample
`i`'s encoder length, or `k` refers to a decoder position whose step index
STRICTLY exceeds the query step `q`. -/
def claimMaskStrict (encoder_lengths : List Nat) (decoder_length : Nat) :
    List (List (List Bool)) :=
  let maxEnc := listMax encoder_lengths
  encoder_lengths.map fun len =>
    (List.range decoder_length).map fun q =>
      (List.range (maxEnc + decoder_length)).map fun k =>
        decide ((k < maxEnc ∧ len ≤ k) ∨ (maxEnc ≤ k ∧ q < k - maxEnc))

/-- Amended mask description: as `claimMaskStrict`, except that a decoder
key step is masked already when its index EQUALS OR exceeds the query step
(the code masks self-attention as well, `attend_step >= predict_step`). -/
def claimMaskCausalIncl (encoder_lengths : List Nat) (decoder_length : Nat) :
    List (List (List Bool)) :=
  let maxEnc := listMax encoder_lengths
  encoder_lengths.map fun len =>
    (List.range decoder_length).map fun q =>
      (List.range (maxEnc + decoder_length)).map fun k =>
        decide ((k < maxEnc ∧ len ≤ k) ∨ (maxEnc ≤ k ∧ q ≤ k - maxEnc))

/-- C1 (counterexample): already for a batch of one sample with encoder
length 1 and decoder length 1, the mask built by the code differs from the
mask the claim describes: the diagonal decoder entry (query step 0, key =
decoder step 0) is masked by the code but not by the claim's strict
causality condition. -/
theorem get_attention_mask_ne_claimMaskStrict :
    get_attention_mask [1] 1 ≠ claimMaskStrict [1] 1 := by
  decide

/-- C1 (amended): for every batch of encoder lengths and every decoder
length, the attention mask has shape
`(batch, decoder_length, max_encoder_length + decoder_length)` and an
entry `(i, q, k)` is `True` exactly when `k` is an encoder position with
index `≥` sample `i`'s encoder length, or `k` is a decoder position whose
step index is `≥` the query step `q` (self and future masked). -/
theorem get_attention_mask_eq_claimMaskCausalIncl
    (encoder_lengths : List Nat) (decoder_length : Nat) :
    get_attention_mask encoder_lengths decoder_length =
      claimMaskCausalIncl encoder_lengths decoder_length := by
  unfold get_attention_mask claimMaskCausalIncl create_mask
  rw [List.map_map]
  refine List.map_congr_left fun len _hlen => ?_
  refine List.map_congr_left fun q hq => ?_
  rw [List.range_add, List.map_append, List.map_map]
  congr 1
  · refine List.map_congr_left fun k hk => ?_
    have hk' : k < listMax encoder_lengths := List.mem_range.mp hk
    simp only [decide_eq_decide]
    constructor
    · intro h; exact Or.inl ⟨hk', h⟩
    · rintro (⟨_, h⟩ | ⟨h, _⟩)
      · exact h
      · omega
  · have hq' : q < decoder_length := List.mem_range.mp hq
    rw [List.getD_eq_getElem?_getD, List.getElem?_map, List.getElem?_range hq']
    refine List.map_congr_left fun k hk => ?_
    simp only [Option.map_some, Option.getD_some, Function.comp]
    simp only [decide_eq_decide]
    constructor
    · intro h
      refine Or.inr ⟨Nat.le_add_right _ _, ?_⟩
      omega
    · rintro (⟨h1, _⟩ | ⟨_, h2⟩)
      · omega
      · omega

/-! ### Rollout controller (`TFTModel._get_batch_prediction`)

The time axis is embedded directly: a model invocation's output chunk is a
list of per-timestep values (`α` is the per-timestep payload, e.g. the row
of output-width many numbers).  Batch and feature axes of a chunk live
inside `α`.  `produce k` stands for the (deterministic, given fixed
parameters and random seed) `self._produce_predict_output(...)` result of
the `k`-th model invocation, already cut at `self.first_prediction_index`. -/

/-- Python list slicing `l[:stop]` for a possibly negative `stop`
(`torch` tensor slicing along the time axis behaves the same way). -/
def pySlice {α : Type} (l : List α) (stop : Int) : List α :=
  if 0 ≤ stop then l.take stop.toNat else l.take (l.length - (-stop).toNat)

/-- One `while prediction_length < n` loop of `_get_batch_prediction`,
operating on the accumulated chunks (most recent first).  Mirrors the
source: when the next chunk would overshoot `n`, the code computes
`spillover_prediction_length`, shrinks `roll_size` and `prediction_length`
by it and truncates the previously appended chunk to the shrunk
`roll_size`; then the next model output (a full chunk) is appended and
`prediction_length` advances by `output_chunk_length`.  `fuel` bounds the
iteration count (the loop itself terminates because `prediction_length`
strictly increases, see `rolloutLoop_fixed`). -/
def rolloutLoop {α : Type} (fuel : Nat) (produce : Nat → List α) (n ocl : Nat)
    (k : Nat) (chunksRev : List (List α)) (predLen rollSize : Int) :
    List (List α) :=
  match fuel with
  | 0 => chunksRev
  | fuel + 1 =>
    if predLen < (n : Int) then
      if (n : Int) < predLen + (ocl : Int) then
        let spill : Int := predLen + (ocl : Int) - (n : Int)
        let rollSize' := rollSize - spill
        let chunksRev' : List (List α) :=
          match chunksRev with
          | [] => []
          | c :: rest => pySlice c rollSize' :: rest
        rolloutLoop fuel produce n ocl (k + 1) (produce k :: chunksRev')
          (predLen - spill + (ocl : Int)) rollSize'
      else
        rolloutLoop fuel produce n ocl (k + 1) (produce k :: chunksRev)
          (predLen + (ocl : Int)) rollSize
    else chunksRev

/-- `TFTModel._get_batch_prediction(n, input_batch, roll_size)`, time axis
only: the first invocation's output is cut to `roll_size` steps
(`batch_prediction = [out[:, :roll_size, :]]`), the loop appends further
chunks, and the concatenation is finally truncated to `n` steps
(`batch_prediction[:, :n, :]`).  `first_prediction_index` is 0 (its value
in the excluded base-model collaborator), so each chunk carries
`output_chunk_length` steps. -/
def get_batch_prediction {α : Type} (produce : Nat → List α)
    (n ocl rollSize : Nat) : List α :=
  let first := pySlice (produce 0) (rollSize : Int)
  let chunks :=
    (rolloutLoop (n + 1) produce n ocl 1 [first] (rollSize : Int)
      (rollSize : Int)).reverse
  chunks.flatten.take n

/-- C2 (evaluation at the failing input): with `output_chunk_length = 4`,
`roll_size = 2` and horizon `n = 9` (each model call returning a full
4-step chunk), the rollout returns only 7 time steps instead of 9: the
truncation step shrinks the previously appended 4-step chunk to the shrunk
`roll_size` (1 step) although only the 1-step spillover should have been
discarded, leaving a 2-step gap that the final `[:, :n]` cut cannot
repair. -/
theorem get_batch_prediction_drops_steps :
    (get_batch_prediction (fun _ => List.replicate 4 (0 : Nat)) 9 4 2).length
      = 7 ∧ 7 ≠ 9 := by
  constructor
  · rfl
  · decide

/-- Total number of time steps carried by a list of chunks. -/
def sumLen {α : Type} (chunks : List (List α)) : Nat :=
  (chunks.map List.length).sum

/-- The loop is a fixpoint as soon as `prediction_length ≥ n`. -/
theorem rolloutLoop_fixed {α : Type} (fuel : Nat) (produce : Nat → List α)
    (n ocl k : Nat) (chunksRev : List (List α)) (predLen rollSize : Int)
    (h : ¬ predLen < (n : Int)) :
    rolloutLoop fuel produce n ocl k chunksRev predLen rollSize = chunksRev := by
  cases fuel with
  | zero => rfl
  | succ f => simp only [rolloutLoop, if_neg h]

/-- Core accounting of the rollout loop when `roll_size` stayed equal to
`output_chunk_length`: the accumulated chunks always carry at least `n`
steps once the loop exits. -/
theorem rolloutLoop_sumLen_ge {α : Type} (produce : Nat → List α) (n ocl : Nat)
    (hocl : 1 ≤ ocl) (hout : ∀ j, (produce j).length = ocl) :
    ∀ (fuel k : Nat) (c : List α) (rest : List (List α)) (predLen : Int),
      c.length = ocl →
      predLen = (sumLen (c :: rest) : Int) →
      (n : Int) - predLen < (fuel : Int) →
      n ≤ sumLen (rolloutLoop fuel produce n ocl k (c :: rest) predLen ocl) := by
  intro fuel
  induction fuel with
  | zero =>
    intro k c rest predLen hc hsum hfuel
    simp only [rolloutLoop]
    simp only [sumLen, List.map_cons, List.sum_cons, hc] at hsum ⊢
    omega
  | succ f ih =>
    intro k c rest predLen hc hsum hfuel
    by_cases h1 : predLen < (n : Int)
    · rw [rolloutLoop, if_pos h1]
      by_cases h2 : (n : Int) < predLen + (ocl : Int)
      · rw [if_pos h2]
        dsimp only
        have hstop : (0 : Int) ≤ ocl - (predLen + (ocl : Int) - (n : Int)) := by
          omega
        have hpred : predLen - (predLen + (ocl : Int) - (n : Int)) + (ocl : Int)
            = (n : Int) := by omega
        rw [hpred]
        rw [rolloutLoop_fixed _ _ _ _ _ _ _ _ (by omega)]
        have hslice :
            (pySlice c ((ocl : Int) - (predLen + (ocl : Int) - (n : Int)))).length
              = min ocl ((ocl : Int) - (predLen + (ocl : Int) - (n : Int))).toNat := by
          rw [pySlice, if_pos hstop, List.length_take, hc]
          omega
        simp only [sumLen, List.map_cons, List.sum_cons, hout k, hslice]
        simp only [sumLen, List.map_cons, List.sum_cons, hc] at hsum
        omega
      · rw [if_neg h2]
        have hsum' : predLen + (ocl : Int)
            = (sumLen (produce k :: c :: rest) : Int) := by
          simp only [sumLen, List.map_cons, List.sum_cons, hout k] at hsum ⊢
          omega
        exact ih (k + 1) (produce k) (c :: rest) (predLen + ocl) (hout k)
          hsum' (by omega)
    · rw [rolloutLoop_fixed _ _ _ _ _ _ _ _ h1]
      simp only [sumLen, List.map_cons, List.sum_cons, hc] at hsum ⊢
      omega

/-- When `roll_size = output_chunk_length` (the configuration the
truncation arithmetic was written for), the rollout output carries exactly
`n` time steps, whether or not `n` is a multiple of
`output_chunk_length`. -/
theorem get_batch_prediction_length_eq {α : Type} (produce : Nat → List α)
    (n ocl : Nat) (hocl : 1 ≤ ocl)
    (hout : ∀ j, (produce j).length = ocl) :
    (get_batch_prediction produce n ocl ocl).length = n := by
  unfold get_batch_prediction
  rw [List.length_take]
  have hfirst : (pySlice (produce 0) (ocl : Int)).length = ocl := by
    rw [pySlice, if_pos (by omega), List.length_take, hout 0]
    omega
  have hge : n ≤ sumLen (rolloutLoop (n + 1) produce n ocl 1
      [pySlice (produce 0) (ocl : Int)] (ocl : Int) (ocl : Int)) := by
    refine rolloutLoop_sumLen_ge produce n ocl hocl hout (n + 1) 1 _ [] _
      hfirst ?_ ?_
    · simp [sumLen, hfirst]
    · omega
  have hlen : ∀ (l : List (List α)), l.reverse.flatten.length = sumLen l := by
    intro l
    rw [List.length_flatten, sumLen, List.map_reverse, List.sum_reverse]
  rw [hlen]
  omega

/-- Chunk truncation never invents time steps: an element of a sliced
chunk was an element of the chunk. -/
theorem mem_of_mem_pySlice {α : Type} {l : List α} {s : Int} {x : α}
    (h : x ∈ pySlice l s) : x ∈ l := by
  unfold pySlice at h
  split at h <;> exact List.take_subset _ _ h

/-- Every per-timestep value in the loop's accumulated chunks either was
already accumulated or comes from some model invocation. -/
theorem rolloutLoop_mem {α : Type} (produce : Nat → List α) (n ocl : Nat) :
    ∀ (fuel k : Nat) (chunksRev : List (List α)) (predLen rollSize : Int)
      (x : α) (c : List α),
      c ∈ rolloutLoop fuel produce n ocl k chunksRev predLen rollSize →
      x ∈ c →
      (∃ c₀ ∈ chunksRev, x ∈ c₀) ∨ ∃ j, x ∈ produce j := by
  intro fuel
  induction fuel with
  | zero =>
    intro k chunksRev predLen rollSize x c hc hx
    exact Or.inl ⟨c, hc, hx⟩
  | succ f ih =>
    intro k chunksRev predLen rollSize x c hc hx
    rw [rolloutLoop] at hc
    by_cases h1 : predLen < (n : Int)
    · rw [if_pos h1] at hc
      by_cases h2 : (n : Int) < predLen + (ocl : Int)
      · rw [if_pos h2] at hc
        dsimp only at hc
        rcases ih _ _ _ _ x c hc hx with ⟨c₀, hc₀, hxc₀⟩ | hj
        · rcases List.mem_cons.mp hc₀ with rfl | hc₀'
          · exact Or.inr ⟨k, hxc₀⟩
          · cases chunksRev with
            | nil => simp at hc₀'
            | cons chead crest =>
              rcases List.mem_cons.mp hc₀' with rfl | htail
              · exact Or.inl ⟨chead, List.mem_cons_self _ _,
                  mem_of_mem_pySlice hxc₀⟩
              · exact Or.inl ⟨c₀, List.mem_cons_of_mem _ htail, hxc₀⟩
        · exact Or.inr hj
      · rw [if_neg h2] at hc
        rcases ih _ _ _ _ x c hc hx with ⟨c₀, hc₀, hxc₀⟩ | hj
        · rcases List.mem_cons.mp hc₀ with rfl | hc₀'
          · exact Or.inr ⟨k, hxc₀⟩
          · exact Or.inl ⟨c₀, hc₀', hxc₀⟩
        · exact Or.inr hj
    · rw [if_neg h1] at hc
      exact Or.inl ⟨c, hc, hx⟩

/-- Every per-timestep value the rollout returns comes from some model
invocation: the bookkeeping only slices and concatenates model outputs. -/
theorem mem_get_batch_prediction {α : Type} (produce : Nat → List α)
    (n ocl rollSize : Nat) (x : α)
    (h : x ∈ get_batch_prediction produce n ocl rollSize) :
    ∃ j, x ∈ produce j := by
  unfold get_batch_prediction at h
  have h' := List.take_subset _ _ h
  rw [List.mem_flatten] at h'
  obtain ⟨c, hc, hxc⟩ := h'
  rw [List.mem_reverse] at hc
  rcases rolloutLoop_mem produce n ocl _ _ _ _ _ x c hc hxc with
    ⟨c₀, hc₀, hxc₀⟩ | hj
  · rcases List.mem_cons.mp hc₀ with rfl | habs
    · exact ⟨0, mem_of_mem_pySlice hxc₀⟩
    · simp at habs
  · exact hj

/-! ### Loss function and predict-output post-processing
(`TFTModel._produce_predict_output`) -/

/-- The two kinds of loss a `TFTModel` can be configured with: the
`QuantileLoss` imported from the submodels module, or any other
(non-quantile) torch loss. -/
inductive LossFn where
  | quantileLoss
  | otherLoss
deriving DecidableEq, Repr

/-- Modelled from the spec: the `QuantileLoss` class lives in
`tft_submodels_darts`, which is not part of this file.  Per the spec's
glossary it predicts a fixed set of quantile levels — seven by default,
including the median 0.5 used by `_produce_predict_output`. -/
def defaultQuantiles : List ℚ :=
  [2/100, 1/10, 1/4, 1/2, 3/4, 9/10, 98/100]

/-- `QuantileLoss().quantiles.index(0.5)`. -/
def p50_index : Nat := defaultQuantiles.indexOf (1/2)

/-- `TFTModel._produce_predict_output(x)` acting on one model-output
chunk (a list of per-timestep rows of width `output_size`): under
`QuantileLoss` the median column is selected and re-expanded to width one
(`self.model(x)[:, :, p50_index].unsqueeze(dim=2)`); under any other loss
the model output is returned unchanged.  `likelihood` is `None` (the
default), so no likelihood sampling applies. -/
def produce_predict_output (loss : LossFn) (chunk : List (List ℚ)) :
    List (List ℚ) :=
  match loss with
  | .quantileLoss => chunk.map fun row => [row.getD p50_index 0]
  | .otherLoss => chunk

/-- Rollout combined with predict-output post-processing: `modelOut k` is
the raw forward output of the `k`-th model invocation. -/
def rollout_predict (loss : LossFn) (modelOut : Nat → List (List ℚ))
    (n ocl rollSize : Nat) : List (List ℚ) :=
  get_batch_prediction (fun j => produce_predict_output loss (modelOut j))
    n ocl rollSize

/-- C3 (counterexample): with `QuantileLoss` the construction-time check
forces `output_size = 7`, yet the rollout's rows have width 1 (the median
column), not the configured output width 7: here every model call returns
a `2 × 7` chunk and the returned `4`-step prediction has row widths
`[1, 1, 1, 1]`. -/
theorem rollout_predict_width_ne_output_size :
    (rollout_predict .quantileLoss
        (fun _ => List.replicate 2 (List.replicate 7 (0 : ℚ))) 4 2 2).map
        List.length = [1, 1, 1, 1] ∧
      [1, 1, 1, 1] ≠ List.replicate 4 7 := by
  constructor
  · rfl
  · decide

/-- C3 (amended): for `roll_size = output_chunk_length`, the rollout
returns one tensor with time dimension exactly `n` and output width equal
to 1 when the configured loss is `QuantileLoss` (the median is extracted)
and to the model's output width otherwise. -/
theorem rollout_predict_shape (loss : LossFn) (w n ocl : Nat)
    (modelOut : Nat → List (List ℚ)) (hocl : 1 ≤ ocl)
    (hlen : ∀ k, (modelOut k).length = ocl)
    (hw : ∀ k, ∀ r ∈ modelOut k, r.length = w) :
    (rollout_predict loss modelOut n ocl ocl).length = n ∧
      ∀ r ∈ rollout_predict loss modelOut n ocl ocl,
        r.length = match loss with
          | .quantileLoss => 1
          | .otherLoss => w := by
  constructor
  · refine get_batch_prediction_length_eq _ n ocl hocl fun j => ?_
    cases loss with
    | quantileLoss => simp [produce_predict_output, hlen j]
    | otherLoss => simp [produce_predict_output, hlen j]
  · intro r hr
    obtain ⟨j, hj⟩ := mem_get_batch_prediction _ n ocl ocl r hr
    cases loss with
    | quantileLoss =>
      simp only [produce_predict_output, List.mem_map] at hj
      obtain ⟨row, _, rfl⟩ := hj
      rfl
    | otherLoss =>
      exact hw j r hj

/-- C3 (witness for the amended theorem): a concrete non-quantile
configuration with `output_size = 1`, `output_chunk_length = 2`, `n = 5`:
the result has 5 steps, each of width 1. -/
theorem rollout_predict_shape_witness :
    (rollout_predict .otherLoss (fun _ => List.replicate 2 [(0 : ℚ)]) 5 2 2).length
        = 5 ∧
      ∀ r ∈ rollout_predict .otherLoss (fun _ => List.replicate 2 [(0 : ℚ)]) 5 2 2,
        r.length = 1 := by
  have h := rollout_predict_shape .otherLoss 1 5 2
    (fun _ => List.replicate 2 [(0 : ℚ)]) (by decide)
    (fun k => by simp) (fun k r hr => by
      simp only [List.mem_replicate] at hr
      rw [hr.2]
      rfl)
  exact h

/-- C9: the rollout controller is deterministic — two invocations on
identical inputs (the same per-invocation model outputs, which are
themselves deterministic given fixed parameters and random seed, the same
`n`, the same `roll_size`) return identical outputs; the bookkeeping
introduces no hidden randomness. -/
theorem get_batch_prediction_two_runs_equal {α : Type}
    (produce : Nat → List α) (n ocl rollSize : Nat) (y₁ y₂ : List α)
    (h₁ : y₁ = get_batch_prediction produce n ocl rollSize)
    (h₂ : y₂ = get_batch_prediction produce n ocl rollSize) : y₁ = y₂ :=
  h₁.trans h₂.symm

/-- C9 (witness): two concrete runs of the rollout coincide. -/
theorem get_batch_prediction_two_runs_equal_witness :
    get_batch_prediction (fun _ => [(0 : Nat), 1]) 5 2 2 =
      get_batch_prediction (fun _ => [(0 : Nat), 1]) 5 2 2 :=
  get_batch_prediction_two_runs_equal (fun _ => [(0 : Nat), 1]) 5 2 2 _ _
    rfl rfl

/-! ### Variable-group construction (`TFTModel._create_model`) -/

/-- Column counts of the tensors of one training sample
`(past_target, past_covariate, historic_future_covariate,
future_covariate, future_target)`; `None` marks an absent covariate
tensor.  `static_covariates` is always `None` in the source. -/
structure TrainSampleWidths where
  past_target : Nat
  past_covariate : Option Nat
  historic_future_covariate : Option Nat
  future_covariate : Option Nat
  future_target : Nat
deriving Repr, DecidableEq

/-- `[f'{var_name}_{i}' for i in range(tensor.shape[1])]`. -/
def varNames (varName : String) (width : Nat) : List String :=
  (List.range width).map fun i => varName ++ "_" ++ toString i

/-- Names contributed by an optional tensor (absent tensors contribute
nothing: the comprehension skips `tensor is None`). -/
def optNames (varName : String) (w : Option Nat) : List String :=
  match w with
  | none => []
  | some width => varNames varName width

/-- `list(dict.fromkeys(l))`: remove duplicates, keeping first-seen
order. -/
def dedupKeepFirst (l : List String) : List String :=
  l.foldl (fun acc x => if x ∈ acc then acc else acc ++ [x]) []

/-- The `reals_input` accumulation of `_create_model` before
deduplication, in the source's `type_names` order (note that
`future_target` re-uses the variable name `target` and both
`historic_future_covariate` and `future_covariate` use the variable name
`future_covariate`). -/
def reals_input_src (w : TrainSampleWidths) : List String :=
  varNames "target" w.past_target ++
    optNames "past_covariate" w.past_covariate ++
    optNames "future_covariate" w.historic_future_covariate ++
    optNames "future_covariate" w.future_covariate ++
    varNames "target" w.future_target

/-- `time_varying_encoder_input` accumulation (types `past_target`,
`past_covariate`, `historic_future_covariate`). -/
def encoder_input_src (w : TrainSampleWidths) : List String :=
  varNames "target" w.past_target ++
    optNames "past_covariate" w.past_covariate ++
    optNames "future_covariate" w.historic_future_covariate

/-- `time_varying_decoder_input` accumulation (type `future_covariate`). -/
def decoder_input_src (w : TrainSampleWidths) : List String :=
  optNames "future_covariate" w.future_covariate

/-- `variables['model_config']['reals_input']`. -/
def reals_input (w : TrainSampleWidths) : List String :=
  dedupKeepFirst (reals_input_src w)

/-- `variables['model_config']['time_varying_encoder_input']`. -/
def time_varying_encoder_input (w : TrainSampleWidths) : List String :=
  dedupKeepFirst (encoder_input_src w)

/-- `variables['model_config']['time_varying_decoder_input']`. -/
def time_varying_decoder_input (w : TrainSampleWidths) : List String :=
  dedupKeepFirst (decoder_input_src w)

/-- `variables['model_config']['static_input']` (`static_covariates` is
always `None`, so the list is empty). -/
def static_input (_w : TrainSampleWidths) : List String := []

theorem mem_foldl_dedup (l : List String) :
    ∀ (acc : List String) (x : String),
      x ∈ l.foldl (fun acc y => if y ∈ acc then acc else acc ++ [y]) acc ↔
        x ∈ acc ∨ x ∈ l := by
  induction l with
  | nil => intro acc x; simp
  | cons hd tl ih =>
    intro acc x
    rw [List.foldl_cons]
    by_cases hmem : hd ∈ acc
    · rw [if_pos hmem, ih]
      constructor
      · rintro (h | h)
        · exact Or.inl h
        · exact Or.inr (List.mem_cons_of_mem _ h)
      · rintro (h | h)
        · exact Or.inl h
        · rcases List.mem_cons.mp h with rfl | h'
          · exact Or.inl hmem
          · exact Or.inr h'
    · rw [if_neg hmem, ih]
      simp only [List.mem_append, List.mem_singleton, List.mem_cons]
      tauto

/-- Membership in `list(dict.fromkeys(l))` is membership in `l`. -/
theorem mem_dedupKeepFirst (l : List String) (x : String) :
    x ∈ dedupKeepFirst l ↔ x ∈ l := by
  rw [dedupKeepFirst, mem_foldl_dedup]
  simp

theorem nodup_foldl_dedup (l : List String) :
    ∀ acc : List String, acc.Nodup →
      (l.foldl (fun acc y => if y ∈ acc then acc else acc ++ [y]) acc).Nodup := by
  induction l with
  | nil => intro acc h; simpa using h
  | cons hd tl ih =>
    intro acc hacc
    rw [List.foldl_cons]
    by_cases hmem : hd ∈ acc
    · rw [if_pos hmem]; exact ih acc hacc
    · rw [if_neg hmem]
      refine ih _ ?_
      rw [List.nodup_append]
      exact ⟨hacc, List.nodup_singleton _, by simpa using hmem⟩

/-- `list(dict.fromkeys(l))` has no duplicates. -/
theorem nodup_dedupKeepFirst (l : List String) : (dedupKeepFirst l).Nodup :=
  nodup_foldl_dedup l [] List.nodup_nil

/-- Smaller widths contribute a subset of names. -/
theorem varNames_subset_of_le {s : String} {a b : Nat} (h : a ≤ b) :
    varNames s a ⊆ varNames s b := by
  intro x hx
  simp only [varNames, List.mem_map, List.mem_range] at hx ⊢
  obtain ⟨i, hi, rfl⟩ := hx
  exact ⟨i, by omega, rfl⟩

/-- Widths of the `_create_model` counterexample sample: one target
column, no past covariates, one future-covariate column (seen both in its
historic part and in its future part), one future-target column. -/
def wCx : TrainSampleWidths := ⟨1, none, some 1, some 1, 1⟩

/-- C4 (counterexample): the feature name `future_covariate_0` is
assigned to BOTH the encoder (past-known) group and the decoder
(future-known) group — a known-future covariate feeds the encoder through
its historic part and the decoder through its future part — so the groups
are not a partition and "every feature column name is assigned to exactly
one group" fails. -/
theorem future_covariate_in_two_groups :
    "future_covariate_0" ∈ time_varying_encoder_input wCx ∧
      "future_covariate_0" ∈ time_varying_decoder_input wCx := by
  decide

/-- C4 (amended): every feature column name of the training sample
appears in at least one of the three groups' lists and conversely, each
group's list is duplicate-free (first-seen order kept), but the groups
need not be disjoint: names backed by a known-future covariate appear in
both the encoder and the decoder group.  (The hypothesis reflects the
training sample: past and future target cover the same target series, so
the future-target width does not exceed the past-target width.) -/
theorem variable_groups_cover (w : TrainSampleWidths)
    (hft : w.future_target ≤ w.past_target) :
    (∀ name, name ∈ reals_input w ↔
        name ∈ static_input w ∨ name ∈ time_varying_encoder_input w ∨
          name ∈ time_varying_decoder_input w) ∧
      (reals_input w).Nodup ∧ (time_varying_encoder_input w).Nodup ∧
        (time_varying_decoder_input w).Nodup ∧ (static_input w).Nodup := by
  refine ⟨fun name => ?_, nodup_dedupKeepFirst _, nodup_dedupKeepFirst _,
    nodup_dedupKeepFirst _, List.nodup_nil⟩
  rw [reals_input, time_varying_encoder_input, time_varying_decoder_input,
    mem_dedupKeepFirst, mem_dedupKeepFirst, mem_dedupKeepFirst]
  simp only [static_input, List.not_mem_nil, false_or]
  rw [reals_input_src, encoder_input_src, decoder_input_src]
  simp only [List.mem_append]
  constructor
  · rintro ((((h | h) | h) | h) | h)
    · exact Or.inl (Or.inl (Or.inl h))
    · exact Or.inl (Or.inl (Or.inr h))
    · exact Or.inl (Or.inr h)
    · exact Or.inr h
    · exact Or.inl (Or.inl (Or.inl (varNames_subset_of_le hft h)))
  · rintro (((h | h) | h) | h)
    · exact Or.inl (Or.inl (Or.inl (Or.inl h)))
    · exact Or.inl (Or.inl (Or.inl (Or.inr h)))
    · exact Or.inl (Or.inl (Or.inr h))
    · exact Or.inl (Or.inr h)

/-- C4 (witness for the amended theorem): evaluated at the concrete
sample widths `wCx`. -/
theorem variable_groups_cover_witness :
    wCx.future_target ≤ wCx.past_target ∧
      ("target_0" ∈ reals_input wCx ↔
        "target_0" ∈ static_input wCx ∨
          "target_0" ∈ time_varying_encoder_input wCx ∨
            "target_0" ∈ time_varying_decoder_input wCx) :=
  ⟨by decide, (variable_groups_cover wCx (by decide)).1 "target_0"⟩

/-! ### Sub-network allocation (`_TFTModule.__init__`)

`nn.Module` sub-network instances are identified by allocation numbers:
two fields holding the same number model two Python references to the one
object (identical parameters); distinct numbers model independently
initialized instances.  `nn.ModuleDict` is an association list from
feature name to instance number. -/

/-- dict assignment `d[k] = v` (overwrite in place, append if absent). -/
def dictInsert (m : List (String × Nat)) (k : String) (v : Nat) :
    List (String × Nat) :=
  if m.any fun p => p.1 == k then
    m.map fun p => if p.1 == k then (k, v) else p
  else m ++ [(k, v)]

/-- `d.keys()` in insertion order. -/
def dictKeys (m : List (String × Nat)) : List String := m.map Prod.fst

/-- `d[k]` as an optional value. -/
def dictLookup (m : List (String × Nat)) (k : String) : Option Nat :=
  match m with
  | [] => none
  | (k', v) :: rest => if k' == k then some v else dictLookup rest k

theorem dictKeys_dictInsert (m : List (String × Nat)) (k : String) (v : Nat) :
    dictKeys (dictInsert m k v) =
      if k ∈ dictKeys m then dictKeys m else dictKeys m ++ [k] := by
  have hany : (m.any fun p => p.1 == k) = true ↔ k ∈ dictKeys m := by
    simp [List.any_eq_true, beq_iff_eq, dictKeys, List.mem_map]
  unfold dictInsert
  by_cases h : k ∈ dictKeys m
  · rw [if_pos (hany.mpr h), if_pos h, dictKeys, List.map_map, dictKeys]
    refine List.map_congr_left fun p _hp => ?_
    by_cases hpk : p.1 = k
    · simp [hpk]
    · simp [hpk]
  · rw [if_neg (fun hc => h (hany.mp hc)), if_neg h]
    simp [dictKeys]

theorem mem_dictKeys_iff_lookup_isSome (m : List (String × Nat)) (k : String) :
    k ∈ dictKeys m ↔ (dictLookup m k).isSome := by
  induction m with
  | nil => simp [dictKeys, dictLookup]
  | cons hd tl ih =>
    rw [dictKeys, List.map_cons, List.mem_cons, dictLookup]
    by_cases h : hd.1 = k
    · simp [h]
    · rw [if_neg (by simpa using h)]
      rw [← dictKeys, ih]
      constructor
      · rintro (rfl | htl)
        · exact absurd rfl h
        · exact htl
      · exact Or.inr

/-- The `share_single_variable_networks` branch of `_TFTModule.__init__`:
one fresh `GatedResidualNetwork` instance per encoder feature name, then
one per decoder feature name not already present (`if name not in
self.shared_single_variable_grns`).  `firstId` is the allocation counter;
each constructed instance takes the next number. -/
def buildSharedGRNs (encVars decVars : List String) (firstId : Nat) :
    List (String × Nat) × Nat :=
  let s1 := encVars.foldl
    (fun (acc : List (String × Nat) × Nat) name =>
      (dictInsert acc.1 name acc.2, acc.2 + 1)) ([], firstId)
  decVars.foldl
    (fun (acc : List (String × Nat) × Nat) name =>
      if acc.1.any fun p => p.1 == name then acc
      else (acc.1 ++ [(name, acc.2)], acc.2 + 1)) s1

theorem dictKeys_foldl_insert (encVars : List String) :
    ∀ (m : List (String × Nat)) (c : Nat),
      dictKeys (encVars.foldl
        (fun (acc : List (String × Nat) × Nat) name =>
          (dictInsert acc.1 name acc.2, acc.2 + 1)) (m, c)).1 =
      encVars.foldl
        (fun acc name => if name ∈ acc then acc else acc ++ [name])
        (dictKeys m) := by
  induction encVars with
  | nil => intro m c; rfl
  | cons hd tl ih =>
    intro m c
    rw [List.foldl_cons, List.foldl_cons, ih, dictKeys_dictInsert]

theorem dictKeys_foldl_addIfAbsent (decVars : List String) :
    ∀ (m : List (String × Nat)) (c : Nat),
      dictKeys (decVars.foldl
        (fun (acc : List (String × Nat) × Nat) name =>
          if acc.1.any fun p => p.1 == name then acc
          else (acc.1 ++ [(name, acc.2)], acc.2 + 1)) (m, c)).1 =
      decVars.foldl
        (fun acc name => if name ∈ acc then acc else acc ++ [name])
        (dictKeys m) := by
  induction decVars with
  | nil => intro m c; rfl
  | cons hd tl ih =>
    intro m c
    rw [List.foldl_cons, List.foldl_cons]
    have hany : (m.any fun p => p.1 == hd) = true ↔ hd ∈ dictKeys m := by
      simp [List.any_eq_true, beq_iff_eq, dictKeys, List.mem_map]
    by_cases h : hd ∈ dictKeys m
    · rw [if_pos (hany.mpr h), if_pos h, ih]
    · rw [if_neg (fun hc => h (hany.mp hc)), if_neg h, ih]
      congr 1
      simp [dictKeys]

/-- The shared map's keys are exactly the encoder feature names followed
by the decoder feature names not already present — i.e. the
first-seen-order deduplication of `encoder ++ decoder`. -/
theorem dictKeys_buildSharedGRNs (encVars decVars : List String)
    (firstId : Nat) :
    dictKeys (buildSharedGRNs encVars decVars firstId).1 =
      dedupKeepFirst (encVars ++ decVars) := by
  unfold buildSharedGRNs dedupKeepFirst
  rw [List.foldl_append]
  rw [dictKeys_foldl_addIfAbsent, dictKeys_foldl_insert]
  rfl

/-! ### The model module (`_TFTModule`) -/

/-- The fields of `_TFTModule` the claims are about.  Sub-network fields
hold instance numbers; two fields holding the same number are two
references to one `nn.Module` object (shared parameters). -/
structure TFTModule where
  input_chunk_length : Nat
  output_chunk_length : Nat
  hidden_size : Nat
  lstm_layers : Nat
  output_size : Nat
  share_single_variable_networks : Bool
  static_variables : List String
  encoder_variables : List String
  decoder_variables : List String
  reals : List String
  prescalers : List (String × Nat)
  static_variable_selection : Nat
  shared_single_variable_grns : List (String × Nat)
  encoder_variable_selection : Nat
  encoder_vsn_single_grns : List (String × Nat)
  encoder_vsn_own_base : Nat
  decoder_variable_selection : Nat
  decoder_vsn_single_grns : List (String × Nat)
  decoder_vsn_own_base : Nat
  static_context_variable_selection : Nat
  static_context_initial_hidden_lstm : Nat
  static_context_initial_cell_lstm : Nat
  static_context_enrichment : Nat
  lstm_encoder : Nat
  lstm_decoder : Nat
  post_lstm_gate_encoder : Nat
  post_lstm_gate_decoder : Nat
  post_lstm_add_norm_encoder : Nat
  post_lstm_add_norm_decoder : Nat
  static_enrichment : Nat
  multihead_attn : Nat
  post_attn_gate_norm : Nat
  pos_wise_ff : Nat
  pre_output_gate_norm : Nat
  output_layer : Nat
deriving Repr, DecidableEq

/-- `_TFTModule.__init__`, in the source's construction order, with a
running allocation counter numbering each constructed sub-network
instance.  The lines modelled one to one: `self.shared_single_variable_grns`
is built only under the sharing flag; the encoder and the decoder
`VariableSelectionNetwork` both receive that same dict (or `{}` without
the flag); `self.post_lstm_gate_decoder = self.post_lstm_gate_encoder`
and `self.post_lstm_add_norm_decoder = self.post_lstm_add_norm_encoder`
are reference aliases, not fresh instances. -/
def TFTModule.init (statVars encVars decVars realsList : List String)
    (icl ocl hidden lstmLayers osize : Nat) (share : Bool) : TFTModule :=
  let prescalers := realsList.enum.map fun p => (p.2, p.1)
  let c1 := realsList.length
  let static_vsn := c1
  let c2 := c1 + 1
  let sharedState := if share then buildSharedGRNs encVars decVars c2
                     else ([], c2)
  let shared := sharedState.1
  let c3 := sharedState.2
  let enc_vsn := c3
  let enc_own := c3 + 1
  let c4 := c3 + 1 + encVars.length
  let dec_vsn := c4
  let dec_own := c4 + 1
  let c5 := c4 + 1 + decVars.length
  { input_chunk_length := icl
    output_chunk_length := ocl
    hidden_size := hidden
    lstm_layers := lstmLayers
    output_size := osize
    share_single_variable_networks := share
    static_variables := statVars
    encoder_variables := encVars
    decoder_variables := decVars
    reals := realsList
    prescalers := prescalers
    static_variable_selection := static_vsn
    shared_single_variable_grns := shared
    encoder_variable_selection := enc_vsn
    encoder_vsn_single_grns := if share then shared else []
    encoder_vsn_own_base := enc_own
    decoder_variable_selection := dec_vsn
    decoder_vsn_single_grns := if share then shared else []
    decoder_vsn_own_base := dec_own
    static_context_variable_selection := c5
    static_context_initial_hidden_lstm := c5 + 1
    static_context_initial_cell_lstm := c5 + 2
    static_context_enrichment := c5 + 3
    lstm_encoder := c5 + 4
    lstm_decoder := c5 + 5
    post_lstm_gate_encoder := c5 + 6
    post_lstm_gate_decoder := c5 + 6
    post_lstm_add_norm_encoder := c5 + 7
    post_lstm_add_norm_decoder := c5 + 7
    static_enrichment := c5 + 8
    multihead_attn := c5 + 9
    post_attn_gate_norm := c5 + 10
    pos_wise_ff := c5 + 11
    pre_output_gate_norm := c5 + 12
    output_layer := c5 + 13 }

/-- Modelled from the spec: `VariableSelectionNetwork` is defined in the
`tft_submodels_darts` module, which is not part of this file.  Per the
spec, a variable-selection gate keeps one gating sub-network per input
feature name, reusing the entry provided in its `single_variable_grns`
argument when present ("encoder and decoder features with the same name
reuse one gating sub-network") and creating its own fresh instance
otherwise. -/
def vsnSingleVariableGrn (provided : List (String × Nat)) (ownBase : Nat)
    (vars : List String) (name : String) : Nat :=
  match dictLookup provided name with
  | some g => g
  | none => ownBase + vars.indexOf name

/-- The gating sub-network serving feature `name` inside the encoder
variable-selection gate. -/
def TFTModule.encoderGateGrn (m : TFTModule) (name : String) : Nat :=
  vsnSingleVariableGrn m.encoder_vsn_single_grns m.encoder_vsn_own_base
    m.encoder_variables name

/-- The gating sub-network serving feature `name` inside the decoder
variable-selection gate. -/
def TFTModule.decoderGateGrn (m : TFTModule) (name : String) : Nat :=
  vsnSingleVariableGrn m.decoder_vsn_single_grns m.decoder_vsn_own_base
    m.decoder_variables name

/-- C5: with `share_single_variable_networks` enabled, a feature name
present in both the encoder and decoder variable groups is served by the
identical gating sub-network instance in both variable-selection gates,
and the shared map is built by adding all encoder features first, then
only the decoder features not already present (first-seen-order
deduplication of encoder-then-decoder names). -/
theorem shared_single_variable_grn_identical
    (statVars encVars decVars realsList : List String)
    (icl ocl hidden lstmLayers osize : Nat) (name : String)
    (henc : name ∈ encVars) (_hdec : name ∈ decVars) :
    (TFTModule.init statVars encVars decVars realsList icl ocl hidden
        lstmLayers osize true).encoderGateGrn name =
      (TFTModule.init statVars encVars decVars realsList icl ocl hidden
        lstmLayers osize true).decoderGateGrn name ∧
    dictKeys (TFTModule.init statVars encVars decVars realsList icl ocl
        hidden lstmLayers osize true).shared_single_variable_grns =
      dedupKeepFirst (encVars ++ decVars) := by
  have hgrns :
      (TFTModule.init statVars encVars decVars realsList icl ocl hidden
        lstmLayers osize true).encoder_vsn_single_grns =
      (buildSharedGRNs encVars decVars (realsList.length + 1)).1 := by
    simp [TFTModule.init]
  have hgrns' :
      (TFTModule.init statVars encVars decVars realsList icl ocl hidden
        lstmLayers osize true).decoder_vsn_single_grns =
      (buildSharedGRNs encVars decVars (realsList.length + 1)).1 := by
    simp [TFTModule.init]
  have hshared :
      (TFTModule.init statVars encVars decVars realsList icl ocl hidden
        lstmLayers osize true).shared_single_variable_grns =
      (buildSharedGRNs encVars decVars (realsList.length + 1)).1 := by
    simp [TFTModule.init]
  have hkeys := dictKeys_buildSharedGRNs encVars decVars
    (realsList.length + 1)
  have hmem : name ∈ dictKeys (buildSharedGRNs encVars decVars
      (realsList.length + 1)).1 := by
    rw [hkeys, mem_dedupKeepFirst, List.mem_append]
    exact Or.inl henc
  obtain ⟨g, hg⟩ := Option.isSome_iff_exists.mp
    ((mem_dictKeys_iff_lookup_isSome _ _).mp hmem)
  constructor
  · rw [TFTModule.encoderGateGrn, TFTModule.decoderGateGrn, hgrns, hgrns',
      vsnSingleVariableGrn, vsnSingleVariableGrn, hg]
  · rw [hshared, hkeys]

/-- C5 (witness): concrete variable groups, the common feature `a`. -/
theorem shared_single_variable_grn_identical_witness :
    (TFTModule.init [] ["a", "b"] ["a", "c"] ["a", "b", "c"] 4 2 8 1 7
        true).encoderGateGrn "a" =
      (TFTModule.init [] ["a", "b"] ["a", "c"] ["a", "b", "c"] 4 2 8 1 7
        true).decoderGateGrn "a" ∧
    dictKeys (TFTModule.init [] ["a", "b"] ["a", "c"] ["a", "b", "c"] 4 2
        8 1 7 true).shared_single_variable_grns =
      dedupKeepFirst (["a", "b"] ++ ["a", "c"]) :=
  shared_single_variable_grn_identical [] ["a", "b"] ["a", "c"]
    ["a", "b", "c"] 4 2 8 1 7 "a" (by decide) (by decide)

/-- C6: the decoder-side post-LSTM skip connection uses the very same
gate and add-normalize instances as the encoder side
(`self.post_lstm_gate_decoder = self.post_lstm_gate_encoder`,
`self.post_lstm_add_norm_decoder = self.post_lstm_add_norm_encoder`):
under every parameter interpretation `env`, the function applied to the
decoder LSTM output is pointwise the function applied to the encoder LSTM
output. -/
theorem post_lstm_skip_weight_tied
    (statVars encVars decVars realsList : List String)
    (icl ocl hidden lstmLayers osize : Nat) (share : Bool) :
    (TFTModule.init statVars encVars decVars realsList icl ocl hidden
        lstmLayers osize share).post_lstm_gate_decoder =
      (TFTModule.init statVars encVars decVars realsList icl ocl hidden
        lstmLayers osize share).post_lstm_gate_encoder ∧
    (TFTModule.init statVars encVars decVars realsList icl ocl hidden
        lstmLayers osize share).post_lstm_add_norm_decoder =
      (TFTModule.init statVars encVars decVars realsList icl ocl hidden
        lstmLayers osize share).post_lstm_add_norm_encoder ∧
    ∀ (env : Nat → ℚ → ℚ) (v : ℚ),
      env (TFTModule.init statVars encVars decVars realsList icl ocl
        hidden lstmLayers osize share).post_lstm_gate_decoder v =
      env (TFTModule.init statVars encVars decVars realsList icl ocl
        hidden lstmLayers osize share).post_lstm_gate_encoder v :=
  ⟨rfl, rfl, fun _ _ => rfl⟩

/-- `_TFTModule.categoricals`: the property body is
`raise NotImplementedError('TFT does not yet support categorical
variables')` — the implemented return is commented out. -/
def TFTModule.categoricals (_m : TFTModule) : Except String (List String) :=
  Except.error "TFT does not yet support categorical variables"

/-- C8: requesting categorical-variable handling always fails immediately
with the unimplemented-capability error, for every model instance; no
value is ever produced (nothing to retry or recover). -/
theorem categoricals_not_implemented (m : TFTModule) :
    m.categoricals =
        Except.error "TFT does not yet support categorical variables" ∧
      ∀ value : List String, m.categoricals ≠ Except.ok value :=
  ⟨rfl, fun _ h => Except.noConfusion h⟩

/-! ### Forward pass (`_TFTModule.forward`) -/

/-- The 4-tuple `x` of `_TFTModule.forward`, one batch sample with the
feature axis of each tensor fused to one value per time step (the width
bookkeeping is carried separately; the frame claim is about module state,
which the fusion preserves). -/
structure ForwardInput where
  past_target : List ℚ
  past_covariates : Option (List ℚ)
  historic_future_covariates : Option (List ℚ)
  future_covariates : List ℚ
deriving Repr, DecidableEq

/-- `torch.cat([t for t in ... if t is not None], dim=2)` with the
feature axis fused: pointwise combination, absent tensors skipped. -/
def catFeatures (a : List ℚ) (b : Option (List ℚ)) : List ℚ :=
  match b with
  | none => a
  | some l => a.zipWith (· + ·) l

/-- One recurrent stack (`self.lstm_encoder` / `self.lstm_decoder`):
state `(outputs, h, c)` folded over the time steps, the cell function
interpreted through `env` at the stack's instance number. -/
def lstmRun (env : Nat → ℚ → ℚ) (cellId : Nat) (h c : ℚ) (xs : List ℚ) :
    List ℚ × ℚ × ℚ :=
  xs.foldl
    (fun acc v =>
      let h' := env cellId (v + acc.2.1 + acc.2.2)
      (acc.1 ++ [h'], h', acc.2.2 + v))
    ([], h, c)

/-- `_TFTModule.forward(x)` in state-passing form: the module is threaded
through and returned next to the output.  Each numbered sub-network is
interpreted through `env` (its learned parameters); the dataflow follows
the source line by line — static embedding fixed to the zero vector
(`static_covariates = None`), variable selection under the expanded
static context, encoder/decoder LSTMs chained through the encoder's final
state, the weight-tied post-LSTM gated skip connections, static
enrichment, masked multi-head attention with queries restricted to the
decoder slice (mask from `get_attention_mask`), the post-attention gate,
position-wise feed-forward, the pre-output gate against the decoder slice
of the LSTM output, and the output layer.  The source body contains no
assignment to any `self` field, so the returned module is the input
module. -/
def TFTModule.forwardT (m : TFTModule) (env : Nat → ℚ → ℚ)
    (x : ForwardInput) : List ℚ × TFTModule :=
  let x_cont_past := catFeatures
    (catFeatures x.past_target x.past_covariates)
    x.historic_future_covariates
  let x_cont_future := x.future_covariates
  let static_embedding : ℚ := 0
  let scvs := env m.static_context_variable_selection static_embedding
  let embeddings_varying_encoder := x_cont_past.map fun v =>
    env m.encoder_variable_selection (v + scvs)
  let embeddings_varying_decoder := x_cont_future.map fun v =>
    env m.decoder_variable_selection (v + scvs)
  let input_hidden := env m.static_context_initial_hidden_lstm
    static_embedding
  let input_cell := env m.static_context_initial_cell_lstm static_embedding
  let encRun := lstmRun env m.lstm_encoder input_hidden input_cell
    embeddings_varying_encoder
  let encoder_output := encRun.1
  let decRun := lstmRun env m.lstm_decoder encRun.2.1 encRun.2.2
    embeddings_varying_decoder
  let decoder_output := decRun.1
  let lstm_output_encoder := encoder_output.zipWith
    (fun o e => env m.post_lstm_add_norm_encoder
      (env m.post_lstm_gate_encoder o + e))
    embeddings_varying_encoder
  let lstm_output_decoder := decoder_output.zipWith
    (fun o e => env m.post_lstm_add_norm_decoder
      (env m.post_lstm_gate_decoder o + e))
    embeddings_varying_decoder
  let lstm_output := lstm_output_encoder ++ lstm_output_decoder
  let sce := env m.static_context_enrichment static_embedding
  let attn_input := lstm_output.map fun v => env m.static_enrichment (v + sce)
  let mask := (get_attention_mask [m.input_chunk_length]
    m.output_chunk_length).getD 0 []
  let queries := attn_input.drop m.input_chunk_length
  let attn_raw := (List.range queries.length).map fun q =>
    let row := mask.getD q []
    env m.multihead_attn
      ((attn_input.enum.map fun p =>
        if row.getD p.1 true then 0 else p.2).sum)
  let attn_output := attn_raw.zipWith
    (fun a inp => env m.post_attn_gate_norm (a + inp)) queries
  let ff_output := attn_output.map fun v => env m.pos_wise_ff v
  let gated_output := ff_output.zipWith
    (fun v s => env m.pre_output_gate_norm (v + s))
    (lstm_output.drop m.input_chunk_length)
  let output := gated_output.map fun v => env m.output_layer v
  (output, m)

/-- C10: a forward pass leaves the module's state — its learned
parameters and every other field — unchanged: the module returned
alongside the output is the module that was passed in, for every module,
parameter interpretation and input 4-tuple. -/
theorem forward_frame (m : TFTModule) (env : Nat → ℚ → ℚ)
    (x : ForwardInput) : (m.forwardT env x).2 = m := rfl

/-! ### Model construction checks (`TFTModel.__init__`) -/

/-- The `TFTModel` configuration fields the claims are about. -/
structure TFTModel where
  input_chunk_length : Nat
  output_chunk_length : Nat
  output_size : Nat
  loss_fn : LossFn
deriving Repr, DecidableEq

/-- The output-size configuration block of `TFTModel.__init__`:
`raise_if(isinstance(loss_fn, QuantileLoss) and output_size !=
len(QuantileLoss().quantiles), ...)` then
`raise_if(not isinstance(loss_fn, QuantileLoss) and output_size != 1)`,
run inside the constructor — before any model is built and hence before
any forward pass can execute.  A raised configuration error is the
`Except.error` branch. -/
def TFTModel.init (loss : LossFn) (output_size : Option Nat)
    (icl ocl : Nat) : Except String TFTModel :=
  match output_size with
  | some sz =>
    if loss = .quantileLoss ∧ sz ≠ defaultQuantiles.length then
      Except.error
        "For now when using QuantileLoss, the output_size must be equal to 7 (quantiles)"
    else if ¬loss = .quantileLoss ∧ sz ≠ 1 then
      Except.error "raise_if condition is True"
    else Except.ok ⟨icl, ocl, sz, loss⟩
  | none =>
    Except.ok
      ⟨icl, ocl,
        if loss = .quantileLoss then defaultQuantiles.length else 1, loss⟩

/-- C7: constructing a `TFTModel` with `QuantileLoss` and an output width
other than the number of quantiles (7), or with a non-quantile loss and
an output width other than 1, raises a configuration error during
`__init__` — and those are the only configurations that do. -/
theorem init_output_size_check (loss : LossFn) (sz icl ocl : Nat) :
    (TFTModel.init loss (some sz) icl ocl).isOk = false ↔
      (loss = .quantileLoss ∧ sz ≠ 7) ∨ (loss ≠ .quantileLoss ∧ sz ≠ 1) := by
  have hlen : defaultQuantiles.length = 7 := rfl
  rw [TFTModel.init]
  simp only [hlen]
  split_ifs with h1 h2
  · simp only [Except.isOk]
    exact ⟨fun _ => Or.inl h1, fun _ => rfl⟩
  · simp only [Except.isOk]
    exact ⟨fun _ => Or.inr h2, fun _ => rfl⟩
  · simp only [Except.isOk]
    constructor
    · intro h; exact Bool.noConfusion h
    · rintro (h | h)
      · exact absurd h h1
      · exact absurd h h2

end TFT
